import Mathlib

/-!
Verification of the beekeeping colony simulator (`bee_population.py` and
`seasonal_bee_simulator.py`).

The Python classes are shallowly embedded as Lean structures and pure
state-transition functions:

* `BeeHiveSimulator` holds the mutable fields of the Python object
  (configuration, population counters, the `developing_brood` deque as a
  `List ℤ`, the queen fields, the optional `events` log, and the per-field
  `history` lists).  Python integers are unbounded, so they are modelled
  as `ℤ`.
* The floating-point utilization constant `0.85` in
  `get_max_brood_capacity` is modelled by the exact rational `17/20`;
  Python's `int(...)` truncation toward zero is `Int.tdiv`.  (For the
  integer sizes exercised here the double rounding agrees with the exact
  value, e.g. `int(42000*0.85) = 35700 = (42000*17).tdiv 20`.)
* `get_brood_occupancy_percentage` returns a Python float; it is modelled
  exactly over `ℚ`.
* `simulate_day` reads `developing_brood[-1]`, which raises `IndexError`
  on an empty deque; the step is therefore `Option`-valued, `none`
  modelling the raised exception.
* The constructor builds `deque([0]*n, maxlen=n)`, which raises
  `ValueError` when `n` is negative; the constructor is therefore also
  `Option`-valued.
* `events` is created lazily (`hasattr(self, 'events')` guards): modelled
  as `Option (List HiveEvent)`.  Purely presentational metadata
  (`_simulation_params`, `_initial_*`, plot/report code, the seasonal
  date-string and flow-name history columns) is not part of any claim and
  is omitted.
-/

set_option maxRecDepth 100000

namespace Beekeeping

/-- Python's `int(q)` on a rational value: truncation toward zero. -/
def pyIntTrunc (q : ℚ) : ℤ := Int.tdiv q.num (q.den : ℤ)

/-- Events appended to the lazily created `self.events` list.  The JSON
`details` payloads are modelled structurally. -/
inductive HiveEvent where
  | frameAddition (day requested added newTotal : ℤ)
  | queenLoss (day : ℤ)
  | queenEmerged (day developmentDay : ℤ)
  | queenMated (day : ℤ)
  deriving DecidableEq, Repr

/-- The mutable state of a `BeeHiveSimulator` object (`bee_population.py`). -/
structure BeeHiveSimulator where
  total_frames : ℤ
  brood_frames : ℤ
  cells_per_frame : ℤ
  attrition_rate : ℤ
  egg_laying_rate : ℤ
  worker_dev_days : ℤ
  queen_dev_days : ℤ
  queen_mating_days : ℤ
  developing_brood : List ℤ
  adult_bees : ℤ
  has_laying_queen : Bool
  queen_development_day : Option ℤ
  events : Option (List HiveEvent)
  hist_day : List ℤ
  hist_adult_bees : List ℤ
  hist_total_brood : List ℤ
  hist_eggs_laid : List ℤ
  hist_bees_emerged : List ℤ
  hist_bees_died : List ℤ
  hist_eggs : List ℤ
  hist_larvae : List ℤ
  hist_pupae : List ℤ
  hist_brood_occupancy_pct : List ℚ
  deriving DecidableEq, Repr

/-- Constructor `BeeHiveSimulator.__init__`.  The only failure mode of the Python
constructor is `deque(maxlen=worker_development_days)` raising
`ValueError` for a negative `maxlen`; every other argument is stored
unvalidated.  The deque starts as `[0] * worker_development_days`. -/
def mkBeeHiveSimulator (total_frames initial_brood_frames attrition_rate
    egg_laying_rate worker_development_days queen_development_days
    queen_mating_days cells_per_frame : ℤ) : Option BeeHiveSimulator :=
  if worker_development_days < 0 then none
  else some
    { total_frames := total_frames
      brood_frames := initial_brood_frames
      cells_per_frame := cells_per_frame
      attrition_rate := attrition_rate
      egg_laying_rate := egg_laying_rate
      worker_dev_days := worker_development_days
      queen_dev_days := queen_development_days
      queen_mating_days := queen_mating_days
      developing_brood := List.replicate worker_development_days.toNat 0
      adult_bees := initial_brood_frames * 3500
      has_laying_queen := true
      queen_development_day := none
      events := none
      hist_day := []
      hist_adult_bees := []
      hist_total_brood := []
      hist_eggs_laid := []
      hist_bees_emerged := []
      hist_bees_died := []
      hist_eggs := []
      hist_larvae := []
      hist_pupae := []
      hist_brood_occupancy_pct := [] }

namespace BeeHiveSimulator

/-- Source `get_max_brood_capacity`: `int(brood_frames * cells_per_frame * 0.85)`
with `0.85` taken exactly and `int()` as truncation toward zero. -/
def get_max_brood_capacity (s : BeeHiveSimulator) : ℤ :=
  Int.tdiv (s.brood_frames * s.cells_per_frame * 17) 20

/-- Source `get_current_brood_count`: `sum(self.developing_brood)`. -/
def get_current_brood_count (s : BeeHiveSimulator) : ℤ :=
  s.developing_brood.sum

/-- Source `get_brood_by_stage`: sums of the slices `[0:3]`, `[3:8]`, `[8:]`. -/
def get_brood_by_stage (s : BeeHiveSimulator) : ℤ × ℤ × ℤ :=
  ((s.developing_brood.take 3).sum,
   ((s.developing_brood.drop 3).take 5).sum,
   (s.developing_brood.drop 8).sum)

/-- Source `get_brood_occupancy_percentage`: `0.0` when the capacity is zero,
otherwise `current / capacity * 100`. -/
def get_brood_occupancy_percentage (s : BeeHiveSimulator) : ℚ :=
  if s.get_max_brood_capacity = 0 then 0
  else ((s.get_current_brood_count : ℚ) / (s.get_max_brood_capacity : ℚ)) * 100

/-- Helper for the `hasattr(self, 'events')` guard: append an event only
when the `events` list has been created. -/
def appendEvent (ev : HiveEvent) (o : Option (List HiveEvent)) :
    Option (List HiveEvent) :=
  o.map (fun l => l ++ [ev])

/-- Source `add_frames`: `brood_frames = min(brood_frames + num_frames,
total_frames)`; records a `frame_addition` event whose details carry the
requested amount, the amount actually added, and the new total.  The
event day is `len(self.history['day'])`. -/
def add_frames (num_frames : ℤ) (s : BeeHiveSimulator) : BeeHiveSimulator :=
  let old_count := s.brood_frames
  let new_count := min (s.brood_frames + num_frames) s.total_frames
  let actual_added := new_count - old_count
  { s with
    brood_frames := new_count
    events := appendEvent
      (.frameAddition (s.hist_day.length : ℤ) num_frames actual_added new_count)
      s.events }

/-- Source `lose_queen`: unconditionally clears `has_laying_queen` and restarts
the queen development counter at `0`; records a `queen_loss` event. -/
def lose_queen (day : ℤ) (s : BeeHiveSimulator) : BeeHiveSimulator :=
  { s with
    has_laying_queen := false
    queen_development_day := some 0
    events := appendEvent (.queenLoss day) s.events }

/-- The queen-development tick of `simulate_day` (step 4): runs only when
the colony is queenless with a live counter; increments the counter,
emits `queen_emerged` when it reaches `queen_dev_days`, and flips the
colony back to laying (clearing the counter) exactly when it reaches
`queen_dev_days + queen_mating_days`.  Returns the updated
`(has_laying_queen, queen_development_day, events)`. -/
def queenTick (day : ℤ) (s : BeeHiveSimulator) :
    Bool × Option ℤ × Option (List HiveEvent) :=
  if s.has_laying_queen = false then
    match s.queen_development_day with
    | some t =>
      let t' := t + 1
      if t' = s.queen_dev_days then
        (false, some t', appendEvent (.queenEmerged day t') s.events)
      else if t' = s.queen_dev_days + s.queen_mating_days then
        (true, none, appendEvent (.queenMated day) s.events)
      else (false, some t', s.events)
    | none => (false, none, s.events)
  else (s.has_laying_queen, s.queen_development_day, s.events)

/-- The body of `simulate_day` once the outgoing cohort
`developing_brood[-1]` has been read successfully.  In source order:
(1) mortality `died = min(attrition_rate, adult_bees)`; (3) egg laying
computes `available_space = capacity - sum(developing_brood)` with the
outgoing cohort still counted (reading `[-1]` does not remove it), lays
`min(egg_laying_rate, available_space)` when the queen is laying and `0`
otherwise, and `appendleft` on the full `maxlen = worker_dev_days` deque
drops the outgoing cohort (modelled by `take`); (4) the
queen-development tick; (5) the history append, with the occupancy
percentage computed on the updated state. -/
def stepResult (day : ℤ) (s : BeeHiveSimulator) (bees_emerged_today : ℤ) :
    BeeHiveSimulator :=
  let bees_died_today := min s.attrition_rate s.adult_bees
  let adult_after_death := s.adult_bees - bees_died_today
  let adult_after_emerge := adult_after_death + bees_emerged_today
  let eggs_laid_today : ℤ :=
    if s.has_laying_queen then
      min s.egg_laying_rate (s.get_max_brood_capacity - s.get_current_brood_count)
    else 0
  let brood' := (eggs_laid_today :: s.developing_brood).take s.worker_dev_days.toNat
  let tick := queenTick day s
  let sMid : BeeHiveSimulator :=
    { s with
      adult_bees := adult_after_emerge
      developing_brood := brood'
      has_laying_queen := tick.1
      queen_development_day := tick.2.1
      events := tick.2.2 }
  { sMid with
    hist_day := s.hist_day ++ [day]
    hist_adult_bees := s.hist_adult_bees ++ [adult_after_emerge]
    hist_total_brood := s.hist_total_brood ++ [brood'.sum]
    hist_eggs_laid := s.hist_eggs_laid ++ [eggs_laid_today]
    hist_bees_emerged := s.hist_bees_emerged ++ [bees_emerged_today]
    hist_bees_died := s.hist_bees_died ++ [bees_died_today]
    hist_eggs := s.hist_eggs ++ [(brood'.take 3).sum]
    hist_larvae := s.hist_larvae ++ [((brood'.drop 3).take 5).sum]
    hist_pupae := s.hist_pupae ++ [(brood'.drop 8).sum]
    hist_brood_occupancy_pct :=
      s.hist_brood_occupancy_pct ++ [sMid.get_brood_occupancy_percentage] }

/-- Source `simulate_day`: step (2), emergence, reads `developing_brood[-1]`
(without removing it); `none` models the `IndexError` raised on an empty
deque.  On success the rest of the daily step is `stepResult`. -/
def simulate_day (day : ℤ) (s : BeeHiveSimulator) : Option BeeHiveSimulator :=
  s.developing_brood.getLast?.map (stepResult day s)

/-- The body of the `run_simulation` loop starting at a given day: apply
the scheduled frame addition, apply the queen loss when the day matches,
then `simulate_day`. -/
def runFrom (frames_to_add : ℤ → Option ℤ) (queen_loss_day : Option ℤ) :
    ℤ → ℕ → BeeHiveSimulator → Option BeeHiveSimulator
  | _, 0, s => some s
  | day, n + 1, s =>
    let s1 := match frames_to_add day with
      | some k => add_frames k s
      | none => s
    let s2 := if queen_loss_day = some day then lose_queen day s1 else s1
    (simulate_day day s2).bind (runFrom frames_to_add queen_loss_day (day + 1) n)

/-- Source `run_simulation(num_days, frames_to_add, queen_loss_day)`: creates
the `events` list when absent, then folds the daily loop over
`day = 0, …, num_days - 1`. -/
def run_simulation (num_days : ℕ) (frames_to_add : ℤ → Option ℤ)
    (queen_loss_day : Option ℤ) (s : BeeHiveSimulator) :
    Option BeeHiveSimulator :=
  runFrom frames_to_add queen_loss_day 0 num_days
    { s with events := some (s.events.getD []) }

end BeeHiveSimulator

/-- The queen-lifecycle-relevant projection of a colony state (spec §3
`ColonyState`): brood frames, adult bees, development cohorts, queen
status. -/
def colonyProj (s : BeeHiveSimulator) : ℤ × ℤ × List ℤ × Bool × Option ℤ :=
  (s.brood_frames, s.adult_bees, s.developing_brood, s.has_laying_queen,
   s.queen_development_day)

/-- The mutable state of a `SeasonalBeeSimulator` object
(`seasonal_bee_simulator.py`): the inherited base-class state plus the
stored base rates and the current day of year.  The date-string and
flow-name history columns are presentational and omitted; the numeric
effective-rate history columns are kept. -/
structure SeasonalBeeSimulator where
  core : BeeHiveSimulator
  base_egg_laying_rate : ℤ
  base_attrition_rate : ℤ
  current_day_of_year : ℤ
  hist_effective_egg_rate : List ℤ
  hist_effective_attrition : List ℤ
  deriving DecidableEq, Repr

namespace SeasonalBeeSimulator

/-- One effective rate of `SeasonalBeeSimulator.simulate_day`:
`max(0, int(base * modifier))`, the modifier being a float from the
calendar (modelled as `ℚ`). -/
def effectiveRate (base : ℤ) (modifier : ℚ) : ℤ :=
  max 0 (pyIntTrunc ((base : ℚ) * modifier))

/-- Source `SeasonalBeeSimulator.simulate_day`, parametrized by the pure
calendar lookup `factors : day_of_year ↦ (egg_rate_modifier,
attrition_modifier)`.  It computes the clamped effective rates,
temporarily overwrites the inherited rate fields, calls the parent
`simulate_day`, restores the original rate fields, appends the seasonal
history columns, and advances `current_day_of_year = (d % 365) + 1`. -/
def simulate_day (factors : ℤ → ℚ × ℚ) (day : ℤ)
    (st : SeasonalBeeSimulator) : Option SeasonalBeeSimulator :=
  let effective_egg_rate :=
    effectiveRate st.base_egg_laying_rate (factors st.current_day_of_year).1
  let effective_attrition :=
    effectiveRate st.base_attrition_rate (factors st.current_day_of_year).2
  let original_egg := st.core.egg_laying_rate
  let original_attrition := st.core.attrition_rate
  let modulated : BeeHiveSimulator :=
    { st.core with
      egg_laying_rate := effective_egg_rate
      attrition_rate := effective_attrition }
  (modulated.simulate_day day).map (fun c =>
    { st with
      core := { c with
        egg_laying_rate := original_egg
        attrition_rate := original_attrition }
      hist_effective_egg_rate := st.hist_effective_egg_rate ++ [effective_egg_rate]
      hist_effective_attrition := st.hist_effective_attrition ++ [effective_attrition]
      current_day_of_year := st.current_day_of_year % 365 + 1 })

end SeasonalBeeSimulator

/-- Iterating the daily step (used for temporal claims about the queen
lifecycle; the day argument only labels event records and is irrelevant
to the queen-state evolution). -/
def stepIter : ℕ → BeeHiveSimulator → Option BeeHiveSimulator
  | 0, s => some s
  | n + 1, s => (s.simulate_day 0).bind (stepIter n)

/-- The state invariant maintained by the simulator under the spec's
caller contract (valid construction, non-negative rate inputs, frames
only added through `add_frames` with non-negative counts). -/
def Inv (s : BeeHiveSimulator) : Prop :=
  0 ≤ s.brood_frames ∧
  s.brood_frames ≤ s.total_frames ∧
  0 < s.cells_per_frame ∧
  0 ≤ s.egg_laying_rate ∧
  (∀ x ∈ s.developing_brood, 0 ≤ x) ∧
  s.developing_brood.length = s.worker_dev_days.toNat ∧
  s.developing_brood.sum ≤ s.get_max_brood_capacity ∧
  (∀ q ∈ s.hist_brood_occupancy_pct, 0 ≤ q ∧ q ≤ 100)

/-- States reachable from a validly configured constructor call through
daily steps, non-negative frame additions, and queen losses. -/
inductive Reachable : BeeHiveSimulator → Prop where
  | init (tf ib ar er wdd qd qm cpf : ℤ) (s : BeeHiveSimulator)
      (hmk : mkBeeHiveSimulator tf ib ar er wdd qd qm cpf = some s)
      (hib : 0 ≤ ib) (hibt : ib ≤ tf) (hcpf : 0 < cpf)
      (her : 0 ≤ er) (har : 0 ≤ ar) : Reachable s
  | step (s s' : BeeHiveSimulator) (d : ℤ) (hr : Reachable s)
      (hs : s.simulate_day d = some s') : Reachable s'
  | frames (s : BeeHiveSimulator) (n : ℤ) (hr : Reachable s) (hn : 0 ≤ n) :
      Reachable (s.add_frames n)
  | queenLoss (s : BeeHiveSimulator) (d : ℤ) (hr : Reachable s) :
      Reachable (s.lose_queen d)

/-- The freshly constructed simulator at the documented default
configuration (the value of `mkBeeHiveSimulator 10 6 300 1100 21 16 10
7000`). -/
def initialSim : BeeHiveSimulator :=
  { total_frames := 10
    brood_frames := 6
    cells_per_frame := 7000
    attrition_rate := 300
    egg_laying_rate := 1100
    worker_dev_days := 21
    queen_dev_days := 16
    queen_mating_days := 10
    developing_brood := List.replicate 21 0
    adult_bees := 21000
    has_laying_queen := true
    queen_development_day := none
    events := none
    hist_day := []
    hist_adult_bees := []
    hist_total_brood := []
    hist_eggs_laid := []
    hist_bees_emerged := []
    hist_bees_died := []
    hist_eggs := []
    hist_larvae := []
    hist_pupae := []
    hist_brood_occupancy_pct := [] }

/-- A simulator state whose stored rates are negative: exactly the value
of `mkBeeHiveSimulator 10 6 (-5) (-7) 1 16 10 7000` — the constructor
accepts such rates. -/
def negRateSim : BeeHiveSimulator :=
  { total_frames := 10
    brood_frames := 6
    cells_per_frame := 7000
    attrition_rate := -5
    egg_laying_rate := -7
    worker_dev_days := 1
    queen_dev_days := 16
    queen_mating_days := 10
    developing_brood := [0]
    adult_bees := 21000
    has_laying_queen := true
    queen_development_day := none
    events := none
    hist_day := []
    hist_adult_bees := []
    hist_total_brood := []
    hist_eggs_laid := []
    hist_bees_emerged := []
    hist_bees_died := []
    hist_eggs := []
    hist_larvae := []
    hist_pupae := []
    hist_brood_occupancy_pct := [] }

/-- A small queenless state used to witness the queen-loss theorems:
worker pipeline of length 2, replacement counter not yet started. -/
def smallSim : BeeHiveSimulator :=
  { total_frames := 10
    brood_frames := 1
    cells_per_frame := 12
    attrition_rate := 0
    egg_laying_rate := 8
    worker_dev_days := 2
    queen_dev_days := 16
    queen_mating_days := 10
    developing_brood := [0, 5]
    adult_bees := 50
    has_laying_queen := true
    queen_development_day := none
    events := some []
    hist_day := []
    hist_adult_bees := []
    hist_total_brood := []
    hist_eggs_laid := []
    hist_bees_emerged := []
    hist_bees_died := []
    hist_eggs := []
    hist_larvae := []
    hist_pupae := []
    hist_brood_occupancy_pct := [] }

/-! ## Basic lemmas about the daily step -/

namespace BeeHiveSimulator

variable {s : BeeHiveSimulator} {d e : ℤ}

/-- The egg cohort inserted by the step, as a standalone expression. -/
def laidToday (s : BeeHiveSimulator) : ℤ :=
  if s.has_laying_queen then
    min s.egg_laying_rate (s.get_max_brood_capacity - s.get_current_brood_count)
  else 0

@[simp] lemma stepResult_total_frames :
    (stepResult d s e).total_frames = s.total_frames := rfl

@[simp] lemma stepResult_brood_frames :
    (stepResult d s e).brood_frames = s.brood_frames := rfl

@[simp] lemma stepResult_cells_per_frame :
    (stepResult d s e).cells_per_frame = s.cells_per_frame := rfl

@[simp] lemma stepResult_attrition_rate :
    (stepResult d s e).attrition_rate = s.attrition_rate := rfl

@[simp] lemma stepResult_egg_laying_rate :
    (stepResult d s e).egg_laying_rate = s.egg_laying_rate := rfl

@[simp] lemma stepResult_worker_dev_days :
    (stepResult d s e).worker_dev_days = s.worker_dev_days := rfl

@[simp] lemma stepResult_queen_dev_days :
    (stepResult d s e).queen_dev_days = s.queen_dev_days := rfl

@[simp] lemma stepResult_queen_mating_days :
    (stepResult d s e).queen_mating_days = s.queen_mating_days := rfl

@[simp] lemma stepResult_adult_bees :
    (stepResult d s e).adult_bees =
      s.adult_bees - min s.attrition_rate s.adult_bees + e := rfl

@[simp] lemma stepResult_developing_brood :
    (stepResult d s e).developing_brood =
      (s.laidToday :: s.developing_brood).take s.worker_dev_days.toNat := rfl

@[simp] lemma stepResult_has_laying_queen :
    (stepResult d s e).has_laying_queen = (queenTick d s).1 := rfl

@[simp] lemma stepResult_queen_development_day :
    (stepResult d s e).queen_development_day = (queenTick d s).2.1 := rfl

@[simp] lemma stepResult_hist_eggs_laid :
    (stepResult d s e).hist_eggs_laid = s.hist_eggs_laid ++ [s.laidToday] := rfl

@[simp] lemma stepResult_hist_bees_emerged :
    (stepResult d s e).hist_bees_emerged = s.hist_bees_emerged ++ [e] := rfl

@[simp] lemma stepResult_hist_bees_died :
    (stepResult d s e).hist_bees_died =
      s.hist_bees_died ++ [min s.attrition_rate s.adult_bees] := rfl

@[simp] lemma stepResult_hist_brood_occupancy_pct :
    (stepResult d s e).hist_brood_occupancy_pct =
      s.hist_brood_occupancy_pct ++
        [(stepResult d s e).get_brood_occupancy_percentage] := rfl

@[simp] lemma stepResult_get_max_brood_capacity :
    (stepResult d s e).get_max_brood_capacity = s.get_max_brood_capacity := rfl

lemma simulate_day_eq_some (day : ℤ) (he : s.developing_brood.getLast? = some e) :
    s.simulate_day day = some (stepResult day s e) := by
  simp [simulate_day, he]

lemma simulate_day_eq_some' (day : ℤ) (hne : s.developing_brood ≠ []) :
    s.simulate_day day =
      some (stepResult day s (s.developing_brood.getLast hne)) :=
  simulate_day_eq_some day (List.getLast?_eq_getLast _ hne)

lemma simulate_day_some_inv {s' : BeeHiveSimulator}
    (h : s.simulate_day d = some s') :
    ∃ hne : s.developing_brood ≠ [],
      s' = stepResult d s (s.developing_brood.getLast hne) := by
  rcases hl : s.developing_brood.getLast? with _ | e
  · rw [simulate_day, hl] at h
    simp at h
  · have hne : s.developing_brood ≠ [] := by
      intro hemp
      rw [hemp] at hl
      simp at hl
    refine ⟨hne, ?_⟩
    rw [simulate_day_eq_some' d hne] at h
    have := (List.getLast?_eq_getLast _ hne).symm.trans hl
    exact (Option.some.injEq _ _).mp h.symm

/-- With a full pipeline, the `appendleft` drops exactly the outgoing
cohort: the new deque is the new cohort consed onto `dropLast`. -/
lemma take_cons_of_length_eq {x : ℤ} {l : List ℤ} {n : ℕ} (h : l.length = n)
    (hne : l ≠ []) : (x :: l).take n = x :: l.dropLast := by
  have h1 : 1 ≤ n := by
    rcases l with _ | ⟨a, l⟩
    · exact absurd rfl hne
    · simp at h
      omega
  obtain ⟨m, rfl⟩ : ∃ m, n = m + 1 := ⟨n - 1, by omega⟩
  rw [List.take_succ_cons, List.dropLast_eq_take, h]
  norm_num

lemma sum_dropLast (l : List ℤ) (hne : l ≠ []) :
    l.dropLast.sum = l.sum - l.getLast hne := by
  have h := congrArg List.sum (List.dropLast_append_getLast hne)
  simp at h
  omega

@[simp] lemma lose_queen_queen_dev_days :
    (s.lose_queen d).queen_dev_days = s.queen_dev_days := rfl

@[simp] lemma lose_queen_queen_mating_days :
    (s.lose_queen d).queen_mating_days = s.queen_mating_days := rfl

@[simp] lemma lose_queen_worker_dev_days :
    (s.lose_queen d).worker_dev_days = s.worker_dev_days := rfl

@[simp] lemma lose_queen_developing_brood :
    (s.lose_queen d).developing_brood = s.developing_brood := rfl

lemma laidToday_nonneg (hrate : 0 ≤ s.egg_laying_rate)
    (hcap : s.get_current_brood_count ≤ s.get_max_brood_capacity) :
    0 ≤ s.laidToday := by
  unfold laidToday
  split
  · exact le_min hrate (by omega)
  · exact le_refl 0

lemma get_current_brood_count_def :
    s.get_current_brood_count = s.developing_brood.sum := rfl

@[simp] lemma add_frames_brood_frames {n : ℤ} :
    (s.add_frames n).brood_frames =
      min (s.brood_frames + n) s.total_frames := rfl

@[simp] lemma add_frames_total_frames {n : ℤ} :
    (s.add_frames n).total_frames = s.total_frames := rfl

@[simp] lemma add_frames_cells_per_frame {n : ℤ} :
    (s.add_frames n).cells_per_frame = s.cells_per_frame := rfl

@[simp] lemma add_frames_egg_laying_rate {n : ℤ} :
    (s.add_frames n).egg_laying_rate = s.egg_laying_rate := rfl

@[simp] lemma add_frames_worker_dev_days {n : ℤ} :
    (s.add_frames n).worker_dev_days = s.worker_dev_days := rfl

@[simp] lemma add_frames_developing_brood {n : ℤ} :
    (s.add_frames n).developing_brood = s.developing_brood := rfl

@[simp] lemma add_frames_hist_brood_occupancy_pct {n : ℤ} :
    (s.add_frames n).hist_brood_occupancy_pct =
      s.hist_brood_occupancy_pct := rfl

lemma get_max_brood_capacity_nonneg (h1 : 0 ≤ s.brood_frames)
    (h2 : 0 ≤ s.cells_per_frame) : 0 ≤ s.get_max_brood_capacity :=
  Int.tdiv_nonneg (mul_nonneg (mul_nonneg h1 h2) (by norm_num)) (by norm_num)

lemma capacity_mono_frames (b b' c : ℤ) (hb : 0 ≤ b) (hbb : b ≤ b')
    (hc : 0 ≤ c) : Int.tdiv (b * c * 17) 20 ≤ Int.tdiv (b' * c * 17) 20 := by
  have hb' : 0 ≤ b' := le_trans hb hbb
  rw [Int.tdiv_eq_ediv (mul_nonneg (mul_nonneg hb hc) (by norm_num)) (by norm_num),
    Int.tdiv_eq_ediv (mul_nonneg (mul_nonneg hb' hc) (by norm_num)) (by norm_num)]
  refine Int.ediv_le_ediv (by norm_num) ?_
  have h1 : b * c ≤ b' * c := mul_le_mul_of_nonneg_right hbb hc
  nlinarith

lemma occupancy_bounds_aux (s : BeeHiveSimulator)
    (hnn : 0 ≤ s.get_current_brood_count)
    (hle : s.get_current_brood_count ≤ s.get_max_brood_capacity)
    (hcap : 0 ≤ s.get_max_brood_capacity) :
    0 ≤ s.get_brood_occupancy_percentage ∧
      s.get_brood_occupancy_percentage ≤ 100 := by
  unfold get_brood_occupancy_percentage
  split_ifs with h
  · norm_num
  · have hpos : (0 : ℚ) < (s.get_max_brood_capacity : ℚ) := by
      have : 0 < s.get_max_brood_capacity := lt_of_le_of_ne hcap (Ne.symm h)
      exact_mod_cast this
    have hq0 : (0 : ℚ) ≤ (s.get_current_brood_count : ℚ) := by exact_mod_cast hnn
    have hdiv0 : (0 : ℚ) ≤
        (s.get_current_brood_count : ℚ) / (s.get_max_brood_capacity : ℚ) :=
      div_nonneg hq0 (le_of_lt hpos)
    have hdiv1 : (s.get_current_brood_count : ℚ) /
        (s.get_max_brood_capacity : ℚ) ≤ 1 := by
      rw [div_le_one hpos]
      exact_mod_cast hle
    constructor
    · positivity
    · nlinarith

end BeeHiveSimulator

/-! ## The reachable-state invariant -/

open BeeHiveSimulator in
lemma inv_init (tf ib ar er wdd qd qm cpf : ℤ) (s : BeeHiveSimulator)
    (hmk : mkBeeHiveSimulator tf ib ar er wdd qd qm cpf = some s)
    (hib : 0 ≤ ib) (hibt : ib ≤ tf) (hcpf : 0 < cpf) (her : 0 ≤ er) :
    Inv s := by
  rw [mkBeeHiveSimulator] at hmk
  split_ifs at hmk with h
  cases hmk
  refine ⟨hib, hibt, hcpf, her, ?_, by simp, ?_, ?_⟩
  · intro x hx
    have hx' : x ∈ List.replicate wdd.toNat (0 : ℤ) := hx
    rw [List.eq_of_mem_replicate hx']
  · have hsum0 : (List.replicate wdd.toNat (0 : ℤ)).sum = 0 := by simp
    show (List.replicate wdd.toNat (0 : ℤ)).sum ≤ Int.tdiv (ib * cpf * 17) 20
    rw [hsum0]
    exact Int.tdiv_nonneg
      (mul_nonneg (mul_nonneg hib (le_of_lt hcpf)) (by norm_num)) (by norm_num)
  · intro q hq
    simp at hq

open BeeHiveSimulator in
lemma inv_step {s s' : BeeHiveSimulator} {d : ℤ}
    (hs : s.simulate_day d = some s') (hinv : Inv s) : Inv s' := by
  obtain ⟨hbf, hbt, hcpf, hrate, hnn, hlen, hsum, hhist⟩ := hinv
  obtain ⟨hne, rfl⟩ := simulate_day_some_inv hs
  have hbrood := take_cons_of_length_eq (x := s.laidToday) hlen hne
  have hlaid : 0 ≤ s.laidToday := laidToday_nonneg hrate hsum
  have hlast0 : 0 ≤ s.developing_brood.getLast hne :=
    hnn _ (List.getLast_mem hne)
  have hlen1 : 1 ≤ s.developing_brood.length := List.length_pos.mpr hne
  have hmem : ∀ x ∈ (stepResult d s (s.developing_brood.getLast hne)).developing_brood,
      0 ≤ x := by
    rw [stepResult_developing_brood, hbrood]
    intro x hx
    rcases List.mem_cons.mp hx with rfl | hx
    · exact hlaid
    · exact hnn x (List.dropLast_subset _ hx)
  have hsum' : (stepResult d s (s.developing_brood.getLast hne)).developing_brood.sum ≤
      (stepResult d s (s.developing_brood.getLast hne)).get_max_brood_capacity := by
    rw [stepResult_get_max_brood_capacity, stepResult_developing_brood, hbrood]
    simp only [List.sum_cons]
    rw [sum_dropLast _ hne]
    have hlaid_le : s.laidToday ≤
        s.get_max_brood_capacity - s.developing_brood.sum ∨ s.laidToday = 0 := by
      unfold laidToday
      split_ifs
      · left
        rw [get_current_brood_count_def]
        exact min_le_right _ _
      · right
        rfl
    rcases hlaid_le with h | h
    · omega
    · rw [h]
      omega
  refine ⟨by rwa [stepResult_brood_frames],
    by rwa [stepResult_brood_frames, stepResult_total_frames],
    by rwa [stepResult_cells_per_frame],
    by rwa [stepResult_egg_laying_rate],
    hmem, ?_, hsum', ?_⟩
  · rw [stepResult_developing_brood, stepResult_worker_dev_days, hbrood]
    simp [List.length_dropLast]
    omega
  · rw [stepResult_hist_brood_occupancy_pct]
    intro q hq
    rcases List.mem_append.mp hq with hq | hq
    · exact hhist q hq
    · obtain rfl := List.mem_singleton.mp hq
      refine occupancy_bounds_aux _ ?_ hsum' ?_
      · rw [get_current_brood_count_def]
        exact List.sum_nonneg hmem
      · rw [stepResult_get_max_brood_capacity]
        exact get_max_brood_capacity_nonneg hbf (le_of_lt hcpf)

open BeeHiveSimulator in
lemma inv_add_frames {s : BeeHiveSimulator} {n : ℤ} (hn : 0 ≤ n)
    (hinv : Inv s) : Inv (s.add_frames n) := by
  obtain ⟨hbf, hbt, hcpf, hrate, hnn, hlen, hsum, hhist⟩ := hinv
  have hbf' : s.brood_frames ≤ min (s.brood_frames + n) s.total_frames :=
    le_min (by omega) hbt
  refine ⟨le_min (by omega) (by omega), min_le_right _ _, hcpf, hrate,
    hnn, hlen, ?_, hhist⟩
  exact le_trans hsum (capacity_mono_frames _ _ _ hbf hbf' (le_of_lt hcpf))

lemma inv_lose_queen {s : BeeHiveSimulator} {d : ℤ} (hinv : Inv s) :
    Inv (s.lose_queen d) := hinv

lemma reachable_inv {s : BeeHiveSimulator} (h : Reachable s) : Inv s := by
  induction h with
  | init tf ib ar er wdd qd qm cpf s hmk hib hibt hcpf her har =>
    exact inv_init tf ib ar er wdd qd qm cpf s hmk hib hibt hcpf her
  | step s s' d hr hs ih => exact inv_step hs ih
  | frames s n hr hn ih => exact inv_add_frames hn ih
  | queenLoss s d hr ih => exact inv_lose_queen ih

/-! ## Claim theorems -/

open BeeHiveSimulator

/-- C1 (amended).  In every completed daily step the recorded eggs-laid
value is `laidToday`; when the queen is laying it equals
`clamp(egg_laying_rate, 0, available_space)` where `available_space =
max_brood_cells - pipeline.total_count()` is computed with the total
counted PRE-emergence (the outgoing cohort still included, since reading
`developing_brood[-1]` does not remove it) and pre-insertion; it is
never negative and never exceeds the requested rate; when the queen is
not laying, 0 is inserted as the new age-0 cohort. -/
theorem egg_laying_capacity_clamp (s s' : BeeHiveSimulator) (d : ℤ)
    (hs : s.simulate_day d = some s')
    (hrate : 0 ≤ s.egg_laying_rate)
    (hcap : s.get_current_brood_count ≤ s.get_max_brood_capacity) :
    s'.hist_eggs_laid = s.hist_eggs_laid ++ [s.laidToday] ∧
    (s.has_laying_queen = true →
      s.laidToday =
        max 0 (min s.egg_laying_rate
          (s.get_max_brood_capacity - s.get_current_brood_count)) ∧
      0 ≤ s.laidToday ∧ s.laidToday ≤ s.egg_laying_rate) ∧
    (s.has_laying_queen = false → s.laidToday = 0) ∧
    s'.developing_brood =
      (s.laidToday :: s.developing_brood).take s.worker_dev_days.toNat := by
  obtain ⟨hne, rfl⟩ := simulate_day_some_inv hs
  refine ⟨by simp, fun hq => ?_, fun hq => ?_, by simp⟩
  · have hmin : 0 ≤ min s.egg_laying_rate
        (s.get_max_brood_capacity - s.get_current_brood_count) :=
      le_min hrate (by omega)
    unfold laidToday
    rw [hq]
    simp only [if_true]
    exact ⟨(max_eq_right hmin).symm, hmin, min_le_left _ _⟩
  · unfold laidToday
    rw [hq]
    simp

/-- Witness for C1 at a concrete state: `smallSim` has a laying queen,
rate 8, capacity 10 and pipeline `[0, 5]`. -/
theorem egg_laying_capacity_clamp_witness :
    (stepResult 0 smallSim 5).hist_eggs_laid =
      smallSim.hist_eggs_laid ++ [smallSim.laidToday] ∧
    (smallSim.has_laying_queen = true →
      smallSim.laidToday =
        max 0 (min smallSim.egg_laying_rate
          (smallSim.get_max_brood_capacity - smallSim.get_current_brood_count)) ∧
      0 ≤ smallSim.laidToday ∧ smallSim.laidToday ≤ smallSim.egg_laying_rate) ∧
    (smallSim.has_laying_queen = false → smallSim.laidToday = 0) ∧
    (stepResult 0 smallSim 5).developing_brood =
      (smallSim.laidToday :: smallSim.developing_brood).take
        smallSim.worker_dev_days.toNat :=
  egg_laying_capacity_clamp smallSim (stepResult 0 smallSim 5) 0
    (by rfl) (by decide) (by decide)

/-- C1 counterexample: the claim's "total counted post-emergence" reading
is false on the code.  Starting from the constructor with one brood frame
(capacity 5950), day 21 has a non-zero outgoing cohort (1100) and a full
pipeline: the code lays `min(1100, 5950 - 5950) = 0`, while the claim's
post-emergence space is `5950 - (5950 - 1100) = 1100`, so the claim
predicts `clamp(1100, 0, 1100) = 1100 ≠ 0`. -/
theorem egg_laying_capacity_clamp_cex :
    ((mkBeeHiveSimulator 10 1 300 1100 21 16 10 7000).bind (fun s =>
        (s.run_simulation 22 (fun _ => none) none).bind
          (fun t => t.hist_eggs_laid[21]?)) = some 0) ∧
    ((mkBeeHiveSimulator 10 1 300 1100 21 16 10 7000).bind (fun s =>
        (s.run_simulation 21 (fun _ => none) none).map (fun t =>
          (t.has_laying_queen,
           t.get_max_brood_capacity -
             (t.get_current_brood_count - t.developing_brood.getLastD 0))))
      = some (true, 1100)) ∧
    (0 : ℤ) ≠ max 0 (min 1100 1100) := by
  refine ⟨by decide, by decide, by decide⟩

/-- C2.  Every completed daily step keeps the cohort sequence at its
fixed length `worker_development_days`, keeps all cohorts non-negative,
and the post-step sum equals the pre-step sum minus the emerged cohort
plus the newly laid cohort. -/
theorem cohort_conservation (s s' : BeeHiveSimulator) (d : ℤ)
    (hs : s.simulate_day d = some s')
    (hrate : 0 ≤ s.egg_laying_rate)
    (hnn : ∀ x ∈ s.developing_brood, 0 ≤ x)
    (hlen : s.developing_brood.length = s.worker_dev_days.toNat)
    (hcap : s.get_current_brood_count ≤ s.get_max_brood_capacity) :
    s'.developing_brood.length = s.worker_dev_days.toNat ∧
    (∀ x ∈ s'.developing_brood, 0 ≤ x) ∧
    ∃ hne : s.developing_brood ≠ [],
      s'.hist_bees_emerged =
        s.hist_bees_emerged ++ [s.developing_brood.getLast hne] ∧
      s'.hist_eggs_laid = s.hist_eggs_laid ++ [s.laidToday] ∧
      s'.developing_brood.sum =
        s.developing_brood.sum - s.developing_brood.getLast hne + s.laidToday := by
  obtain ⟨hne, rfl⟩ := simulate_day_some_inv hs
  have hbrood : (s.laidToday :: s.developing_brood).take s.worker_dev_days.toNat
      = s.laidToday :: s.developing_brood.dropLast :=
    take_cons_of_length_eq hlen hne
  have hlen1 : 1 ≤ s.developing_brood.length :=
    List.length_pos.mpr hne
  refine ⟨?_, ?_, hne, by simp, by simp, ?_⟩
  · rw [stepResult_developing_brood, hbrood]
    simp [List.length_dropLast]
    omega
  · rw [stepResult_developing_brood, hbrood]
    intro x hx
    rcases List.mem_cons.mp hx with rfl | hx
    · exact laidToday_nonneg hrate hcap
    · exact hnn x (List.dropLast_subset _ hx)
  · rw [stepResult_developing_brood, hbrood]
    simp only [List.sum_cons]
    rw [sum_dropLast s.developing_brood hne]
    ring

/-- Witness for C2 at the concrete state `smallSim`. -/
theorem cohort_conservation_witness :
    (stepResult 0 smallSim 5).developing_brood.length =
      smallSim.worker_dev_days.toNat ∧
    (∀ x ∈ (stepResult 0 smallSim 5).developing_brood, 0 ≤ x) ∧
    ∃ hne : smallSim.developing_brood ≠ [],
      (stepResult 0 smallSim 5).hist_bees_emerged =
        smallSim.hist_bees_emerged ++ [smallSim.developing_brood.getLast hne] ∧
      (stepResult 0 smallSim 5).hist_eggs_laid =
        smallSim.hist_eggs_laid ++ [smallSim.laidToday] ∧
      (stepResult 0 smallSim 5).developing_brood.sum =
        smallSim.developing_brood.sum - smallSim.developing_brood.getLast hne +
          smallSim.laidToday :=
  cohort_conservation smallSim (stepResult 0 smallSim 5) 0
    (by rfl) (by decide) (by decide) (by decide) (by decide)

/-- C4.  In every completed daily step the recorded death count is
`min(attrition_rate, adult_bees_before)`, it is subtracted from the
adult count before emergence is added (egg laying never touches
`adult_bees`), the intermediate adult count is already non-negative, and
the final adult count stays non-negative. -/
theorem mortality_floor (s s' : BeeHiveSimulator) (d : ℤ)
    (hs : s.simulate_day d = some s')
    (hnn : ∀ x ∈ s.developing_brood, 0 ≤ x) :
    ∃ hne : s.developing_brood ≠ [],
      s'.hist_bees_died =
        s.hist_bees_died ++ [min s.attrition_rate s.adult_bees] ∧
      s'.adult_bees = s.adult_bees - min s.attrition_rate s.adult_bees +
        s.developing_brood.getLast hne ∧
      0 ≤ s.adult_bees - min s.attrition_rate s.adult_bees ∧
      0 ≤ s'.adult_bees := by
  obtain ⟨hne, rfl⟩ := simulate_day_some_inv hs
  have hlast : 0 ≤ s.developing_brood.getLast hne :=
    hnn _ (List.getLast_mem hne)
  have hmin : min s.attrition_rate s.adult_bees ≤ s.adult_bees :=
    min_le_right _ _
  exact ⟨hne, by simp, by simp, by omega, by simp; omega⟩

/-- Witness for C4 at the concrete state `smallSim`. -/
theorem mortality_floor_witness :
    ∃ hne : smallSim.developing_brood ≠ [],
      (stepResult 0 smallSim 5).hist_bees_died =
        smallSim.hist_bees_died ++
          [min smallSim.attrition_rate smallSim.adult_bees] ∧
      (stepResult 0 smallSim 5).adult_bees =
        smallSim.adult_bees - min smallSim.attrition_rate smallSim.adult_bees +
          smallSim.developing_brood.getLast hne ∧
      0 ≤ smallSim.adult_bees - min smallSim.attrition_rate smallSim.adult_bees ∧
      0 ≤ (stepResult 0 smallSim 5).adult_bees :=
  mortality_floor smallSim (stepResult 0 smallSim 5) 0
    (by rfl) (by decide)

/-- C3.  With `queen_development_days = 16`, `queen_mating_days = 10`,
`worker_development_days = 21` and the queen lost on day 3 (hook applied
before that day's step), the run records: eggs_laid = 0 on every day
from 3 through 28 inclusive; eggs_laid = 1100 > 0 on day 29 (positive
rate, ample space); an emergence gap exactly 21 days after day 3 (day 23
still emerges the last pre-loss cohort 1100, day 24 emerges 0); the
colony is not laying after any of the steps of days 3 .. 27, still holds
counter 25 after day 27's step, and returns to laying exactly during day
28's step, when the incremented counter reaches 26 = 16 + 10. -/
theorem queen_loss_timeline :
    ((mkBeeHiveSimulator 10 6 300 1100 21 16 10 7000).bind (fun s =>
        (s.run_simulation 30 (fun _ => none) (some 3)).map (fun t =>
          ((t.hist_eggs_laid.drop 3).take 26, t.hist_eggs_laid[29]?,
           t.hist_bees_emerged[23]?, t.hist_bees_emerged[24]?)))
      = some (List.replicate 26 0, some 1100, some 1100, some 0)) ∧
    (∀ n : ℕ, n < 29 → 4 ≤ n →
      (mkBeeHiveSimulator 10 6 300 1100 21 16 10 7000).bind (fun s =>
        (s.run_simulation n (fun _ => none) (some 3)).map
          (fun t => t.has_laying_queen)) = some false) ∧
    ((mkBeeHiveSimulator 10 6 300 1100 21 16 10 7000).bind (fun s =>
        (s.run_simulation 28 (fun _ => none) (some 3)).map
          (fun t => (t.has_laying_queen, t.queen_development_day)))
      = some (false, some 25)) ∧
    ((mkBeeHiveSimulator 10 6 300 1100 21 16 10 7000).bind (fun s =>
        (s.run_simulation 29 (fun _ => none) (some 3)).map
          (fun t => (t.has_laying_queen, t.queen_development_day)))
      = some (true, none)) ∧
    (25 + 1 : ℤ) = 16 + 10 ∧ (0 : ℤ) < 1100 := by
  refine ⟨by decide, by decide, by decide, by decide, by decide, by decide⟩

/-- Witness for C3: instantiating the bounded quantifier at day 10, the
colony is still queenless after ten days of the queen-loss run. -/
theorem queen_loss_timeline_witness :
    (mkBeeHiveSimulator 10 6 300 1100 21 16 10 7000).bind (fun s =>
      (s.run_simulation 10 (fun _ => none) (some 3)).map
        (fun t => t.has_laying_queen)) = some false :=
  queen_loss_timeline.2.1 10 (by decide) (by decide)

/-- C5 counterexample: the base simulator applies its stored rates
without clamping.  `negRateSim` is exactly the constructor's output for
`attrition_rate = -5` and `egg_laying_rate = -7`; its daily step records
a death count of `-5` and an egg cohort of `-7`, and mutates the colony
with these negative rates (`adult_bees` grows from 21000 to 21005), so
the effective rates actually used are negative, not clamped to 0. -/
theorem rate_clamping_cex :
    (negRateSim.simulate_day 0).map
      (fun t => (t.hist_bees_died, t.hist_eggs_laid, t.adult_bees)) =
      some ([-5], [-7], 21005) ∧
    mkBeeHiveSimulator 10 6 (-5) (-7) 1 16 10 7000 = some negRateSim ∧
    ¬ (0 : ℤ) ≤ -5 ∧ ¬ (0 : ℤ) ≤ -7 := by
  refine ⟨by decide, by decide, by decide, by decide⟩

/-- C5 (amended).  Rate clamping happens only in the seasonal layer: the
seasonal simulator's effective rates `max(0, int(base × modifier))` are
non-negative for every base rate and modifier, while the base
simulator's daily step applies its stored attrition rate (and egg rate,
see the counterexample) as-is, without clamping. -/
theorem rate_clamping_amended (b : ℤ) (m : ℚ) (s : BeeHiveSimulator) (d e : ℤ)
    (he : s.developing_brood.getLast? = some e) :
    0 ≤ SeasonalBeeSimulator.effectiveRate b m ∧
    (s.simulate_day d).map (fun t => t.hist_bees_died) =
      some (s.hist_bees_died ++ [min s.attrition_rate s.adult_bees]) := by
  constructor
  · exact le_max_left 0 _
  · rw [simulate_day_eq_some d he]
    simp

/-- Witness for the amended C5 at concrete inputs. -/
theorem rate_clamping_amended_witness :
    0 ≤ SeasonalBeeSimulator.effectiveRate (-1100) (3 / 2) ∧
    (negRateSim.simulate_day 0).map (fun t => t.hist_bees_died) =
      some (negRateSim.hist_bees_died ++
        [min negRateSim.attrition_rate negRateSim.adult_bees]) :=
  rate_clamping_amended (-1100) (3 / 2) negRateSim 0 0 (by decide)

/-- C7.  For every current frame count and requested addition `n ≥ 0`,
`add_frames` sets `brood_frames` to `min(brood_frames + n,
total_frames)`, which never exceeds `total_frames`; the function is
total (never an error), and the truncated amount actually added is
reported in the appended `frame_addition` event record. -/
theorem add_frames_truncates (s : BeeHiveSimulator) (n : ℤ)
    (l : List HiveEvent) (hn : 0 ≤ n) (he : s.events = some l) :
    (s.add_frames n).brood_frames = min (s.brood_frames + n) s.total_frames ∧
    (s.add_frames n).brood_frames ≤ s.total_frames ∧
    (s.add_frames n).events = some (l ++
      [HiveEvent.frameAddition (s.hist_day.length : ℤ) n
        (min (s.brood_frames + n) s.total_frames - s.brood_frames)
        (min (s.brood_frames + n) s.total_frames)]) := by
  refine ⟨rfl, min_le_right _ _, ?_⟩
  rw [add_frames]
  simp [appendEvent, he]

/-- Witness for C7: requesting 7 frames with 6 of 10 occupied truncates
to 4 actually added. -/
theorem add_frames_truncates_witness :
    (smallSim.add_frames 7).brood_frames =
      min (smallSim.brood_frames + 7) smallSim.total_frames ∧
    (smallSim.add_frames 7).brood_frames ≤ smallSim.total_frames ∧
    (smallSim.add_frames 7).events = some ([] ++
      [HiveEvent.frameAddition (smallSim.hist_day.length : ℤ) 7
        (min (smallSim.brood_frames + 7) smallSim.total_frames -
          smallSim.brood_frames)
        (min (smallSim.brood_frames + 7) smallSim.total_frames)]) :=
  add_frames_truncates smallSim 7 [] (by decide) (by decide)

/-- C8 counterexample: the claim's fail-fast validation does not exist.
Constructing with `cells_per_frame = 0` and `queen_development_days =
-16` succeeds, and both invalid values are stored unchanged — no error
is raised and nothing is corrected. -/
theorem constructor_validation_cex :
    (mkBeeHiveSimulator 10 6 300 1100 21 (-16) 10 0).map
      (fun s => (s.cells_per_frame, s.queen_dev_days)) = some (0, -16) ∧
    (mkBeeHiveSimulator 10 6 300 1100 21 (-16) 10 0).isSome = true := by
  refine ⟨by decide, by decide⟩

/-- C8 (amended).  Construction fails only for a negative
`worker_development_days` (the cohort deque rejects a negative
`maxlen`); every other configuration value — including non-positive
`cells_per_frame` and negative `queen_development_days` /
`queen_mating_days` — is accepted and stored verbatim, with no error
and no silent correction. -/
theorem constructor_validation_amended (tf ib ar er wdd qd qm cpf : ℤ) :
    (mkBeeHiveSimulator tf ib ar er wdd qd qm cpf).isSome =
      decide (0 ≤ wdd) ∧
    (mkBeeHiveSimulator tf ib ar er wdd qd qm cpf).map
      (fun s => (s.cells_per_frame, s.worker_dev_days, s.queen_dev_days,
                 s.queen_mating_days, s.egg_laying_rate, s.attrition_rate)) =
      (if 0 ≤ wdd then some (cpf, wdd, qd, qm, er, ar) else none) := by
  rw [mkBeeHiveSimulator]
  by_cases h : wdd < 0
  · rw [if_pos h, if_neg (by omega)]
    simp
    omega
  · rw [if_neg h, if_pos (by omega)]
    simp
    omega

/-- C6.  For every reachable state (valid construction, non-negative
rate inputs, frames only added through the frame hook), the occupancy
percentage — and with it every recorded `brood_occupancy_pct` history
entry — lies in [0, 100] (exactly, over `ℚ`), and it equals 0 whenever
`max_brood_cells` is 0. -/
theorem occupancy_bounds_reachable (s : BeeHiveSimulator) (h : Reachable s) :
    (0 ≤ s.get_brood_occupancy_percentage ∧
      s.get_brood_occupancy_percentage ≤ 100) ∧
    (s.get_max_brood_capacity = 0 → s.get_brood_occupancy_percentage = 0) ∧
    (∀ q ∈ s.hist_brood_occupancy_pct, 0 ≤ q ∧ q ≤ 100) := by
  obtain ⟨hbf, hbt, hcpf, hrate, hnn, hlen, hsum, hhist⟩ := reachable_inv h
  refine ⟨?_, ?_, hhist⟩
  · exact occupancy_bounds_aux s (List.sum_nonneg hnn) hsum
      (get_max_brood_capacity_nonneg hbf (le_of_lt hcpf))
  · intro hz
    rw [get_brood_occupancy_percentage, if_pos hz]

/-- Witness for C6 at the freshly constructed default simulator, a
reachable state by construction. -/
theorem occupancy_bounds_reachable_witness :
    (0 ≤ initialSim.get_brood_occupancy_percentage ∧
      initialSim.get_brood_occupancy_percentage ≤ 100) ∧
    (initialSim.get_max_brood_capacity = 0 →
      initialSim.get_brood_occupancy_percentage = 0) ∧
    (∀ q ∈ initialSim.hist_brood_occupancy_pct, 0 ≤ q ∧ q ≤ 100) :=
  occupancy_bounds_reachable initialSim
    (Reachable.init 10 6 300 1100 21 16 10 7000 initialSim (by decide)
      (by decide) (by decide) (by decide) (by decide) (by decide))

/-- C9.  For every day and every pure calendar lookup, the seasonal
simulator's step produces exactly the same colony-state transition
(brood frames, adult bees, development cohorts, queen status) as the
base daily step run with effective rates `max(0, int(base_egg_laying_rate
× egg_rate_modifier))` and `max(0, int(base_attrition_rate ×
attrition_modifier))`, and the stored base rate fields (and the restored
inherited rate fields) are unchanged whenever the step completes. -/
theorem seasonal_refinement (factors : ℤ → ℚ × ℚ) (d : ℤ)
    (st : SeasonalBeeSimulator) :
    (SeasonalBeeSimulator.simulate_day factors d st).map
        (fun t => colonyProj t.core) =
      (BeeHiveSimulator.simulate_day d
        { st.core with
          egg_laying_rate := SeasonalBeeSimulator.effectiveRate
            st.base_egg_laying_rate (factors st.current_day_of_year).1
          attrition_rate := SeasonalBeeSimulator.effectiveRate
            st.base_attrition_rate (factors st.current_day_of_year).2 }).map
        colonyProj ∧
    (SeasonalBeeSimulator.simulate_day factors d st).map
        (fun t => (t.base_egg_laying_rate, t.base_attrition_rate,
                   t.core.egg_laying_rate, t.core.attrition_rate)) =
      (SeasonalBeeSimulator.simulate_day factors d st).map
        (fun _ => (st.base_egg_laying_rate, st.base_attrition_rate,
                   st.core.egg_laying_rate, st.core.attrition_rate)) := by
  rw [SeasonalBeeSimulator.simulate_day]
  rcases h : BeeHiveSimulator.simulate_day d
      { st.core with
        egg_laying_rate := SeasonalBeeSimulator.effectiveRate
          st.base_egg_laying_rate (factors st.current_day_of_year).1
        attrition_rate := SeasonalBeeSimulator.effectiveRate
          st.base_attrition_rate (factors st.current_day_of_year).2 }
      with _ | c
  · simp
  · simp [colonyProj]

/-! ## Queen-lifecycle countdown lemmas (for the queen-loss claim) -/

lemma queenTick_continue (d : ℤ) (s : BeeHiveSimulator) (c : ℤ)
    (hq : s.has_laying_queen = false) (hc : s.queen_development_day = some c)
    (h1 : c + 1 ≠ s.queen_dev_days + s.queen_mating_days) :
    (queenTick d s).1 = false ∧ (queenTick d s).2.1 = some (c + 1) := by
  simp only [queenTick, hq, hc]
  split_ifs <;> simp_all

lemma queenTick_mated (d : ℤ) (s : BeeHiveSimulator) (c : ℤ)
    (hq : s.has_laying_queen = false) (hc : s.queen_development_day = some c)
    (hqd : c + 1 ≠ s.queen_dev_days)
    (h2 : c + 1 = s.queen_dev_days + s.queen_mating_days) :
    (queenTick d s).1 = true ∧ (queenTick d s).2.1 = none := by
  simp only [queenTick, hq, hc]
  split_ifs <;> simp_all

/-- While queenless with counter `c`, iterating `k` daily steps keeps the
colony queenless exactly until the counter reaches
`queen_dev_days + queen_mating_days`. -/
lemma queen_wait_aux (k : ℕ) :
    ∀ (s : BeeHiveSimulator) (c : ℤ),
      s.has_laying_queen = false →
      s.queen_development_day = some c →
      s.developing_brood.length = s.worker_dev_days.toNat →
      0 < s.worker_dev_days →
      0 < s.queen_mating_days →
      0 ≤ c → c < s.queen_dev_days + s.queen_mating_days →
      c + k ≤ s.queen_dev_days + s.queen_mating_days →
      ∃ t, stepIter k s = some t ∧
        (t.has_laying_queen = true ↔
          c + k = s.queen_dev_days + s.queen_mating_days) := by
  induction k with
  | zero =>
    intro s c hq hc _ _ _ _ hlt _
    refine ⟨s, rfl, ?_⟩
    rw [hq]
    constructor
    · intro h
      cases h
    · intro h
      omega
  | succ k ih =>
    intro s c hq hc hlen hw hm hc0 hlt hbound
    have hne : s.developing_brood ≠ [] := by
      apply List.length_pos.mp
      omega
    have hstep := simulate_day_eq_some' (s := s) 0 hne
    have hlen1 : (stepResult 0 s (s.developing_brood.getLast hne)).developing_brood.length
        = s.worker_dev_days.toNat := by
      rw [stepResult_developing_brood, take_cons_of_length_eq hlen hne]
      simp [List.length_dropLast]
      omega
    by_cases hcb : c + 1 = s.queen_dev_days + s.queen_mating_days
    · obtain ⟨h1, h2⟩ := queenTick_mated 0 s c hq hc (by omega) hcb
      have hk0 : k = 0 := by omega
      subst hk0
      refine ⟨stepResult 0 s (s.developing_brood.getLast hne), ?_, ?_⟩
      · rw [stepIter, hstep, Option.some_bind]
        rfl
      · rw [stepResult_has_laying_queen, h1]
        constructor
        · intro _
          push_cast
          omega
        · intro _
          rfl
    · obtain ⟨h1, h2⟩ := queenTick_continue 0 s c hq hc hcb
      obtain ⟨t, ht, hiff⟩ := ih (stepResult 0 s (s.developing_brood.getLast hne))
        (c + 1)
        (by rw [stepResult_has_laying_queen, h1])
        (by rw [stepResult_queen_development_day, h2])
        (by rw [stepResult_worker_dev_days]; exact hlen1)
        (by rw [stepResult_worker_dev_days]; exact hw)
        (by rw [stepResult_queen_mating_days]; exact hm)
        (by omega)
        (by rw [stepResult_queen_dev_days, stepResult_queen_mating_days]; omega)
        (by rw [stepResult_queen_dev_days, stepResult_queen_mating_days]; omega)
      refine ⟨t, ?_, ?_⟩
      · rw [stepIter, hstep, Option.some_bind]
        exact ht
      · rw [hiff, stepResult_queen_dev_days, stepResult_queen_mating_days]
        push_cast
        omega

/-- C10.  Calling `lose_queen` in any state — in particular while a
replacement queen is already developing — unconditionally sets the
colony to not-laying and resets the development counter to 0, discarding
prior progress: the colony then stays non-laying for every number of
steps strictly below `queen_development_days + queen_mating_days` and
becomes laying exactly at that count. -/
theorem lose_queen_restart (s : BeeHiveSimulator) (d : ℤ)
    (hlen : s.developing_brood.length = s.worker_dev_days.toNat)
    (hw : 0 < s.worker_dev_days)
    (hqd : 0 ≤ s.queen_dev_days) (hqm : 0 < s.queen_mating_days) :
    (s.lose_queen d).has_laying_queen = false ∧
    (s.lose_queen d).queen_development_day = some 0 ∧
    ∀ k : ℕ, (k : ℤ) ≤ s.queen_dev_days + s.queen_mating_days →
      ∃ t, stepIter k (s.lose_queen d) = some t ∧
        (t.has_laying_queen = true ↔
          (k : ℤ) = s.queen_dev_days + s.queen_mating_days) := by
  refine ⟨rfl, rfl, fun k hk => ?_⟩
  have h := queen_wait_aux k (s.lose_queen d) 0 rfl rfl hlen hw hqm
    (le_refl 0)
    (by simp only [lose_queen_queen_dev_days, lose_queen_queen_mating_days]; omega)
    (by simp only [lose_queen_queen_dev_days, lose_queen_queen_mating_days]; omega)
  simpa using h

/-- Witness for C10: losing the queen of `smallSim` (whose queen was
laying) resets the counter, and 26 = 16 + 10 steps later the colony is
laying again. -/
theorem lose_queen_restart_witness :
    (smallSim.lose_queen 0).has_laying_queen = false ∧
    (smallSim.lose_queen 0).queen_development_day = some 0 ∧
    ∃ t, stepIter 26 (smallSim.lose_queen 0) = some t ∧
      (t.has_laying_queen = true ↔
        (26 : ℤ) = smallSim.queen_dev_days + smallSim.queen_mating_days) := by
  obtain ⟨h1, h2, h3⟩ :=
    lose_queen_restart smallSim 0 (by decide) (by decide) (by decide) (by decide)
  exact ⟨h1, h2, h3 26 (by decide)⟩

end Beekeeping
